import Mathlib

set_option maxRecDepth 8000

namespace StudyBuddy

/-!
Shallow embedding of the AI_study_Buddy repository (src/utils.py, src/app.py).
Strings are modelled as `List Char`; the Python string primitives used by the
code (strip, splitlines, split, replace, startswith) are given explicit
executable definitions below, and the parsing / formatting functions of the
repository are translated on top of them.
-/

/-- ASCII whitespace, as recognised by Python `str.strip()` / `str.split()`
on the ASCII range. -/
def pySpace (c : Char) : Bool :=
  c = ' ' || c = '\t' || c = '\n' || c = '\r' || c = '\x0b' || c = '\x0c'

/-- Left part of Python `str.strip()`: drop leading whitespace. -/
def stripLeft (s : List Char) : List Char := s.dropWhile pySpace

/-- Right part of Python `str.strip()`: drop trailing whitespace. -/
def stripRight (s : List Char) : List Char := (s.reverse.dropWhile pySpace).reverse

/-- Python `str.strip()`. -/
def pyStrip (s : List Char) : List Char := stripRight (stripLeft s)

/-- Line-break characters recognised by Python `str.splitlines()`. -/
def pyLineBreak (c : Char) : Bool :=
  c = '\n' || c = '\r' || c = '\x0b' || c = '\x0c' ||
  c = '\x1c' || c = '\x1d' || c = '\x1e' || c = '\x85' ||
  c = '\u2028' || c = '\u2029'

/-- Worker for `pySplitlines`; `cur` is the reversed current line.  On a
line-break character the line is emitted, with `\r\n` consumed as a single
boundary. -/
def pySplitlinesAux (cur : List Char) : List Char → List (List Char)
  | [] => if cur.isEmpty then [] else [cur.reverse]
  | c :: rest =>
    if pyLineBreak c then
      cur.reverse ::
        (if c = '\r' then
           match rest with
           | [] => []
           | c' :: rest' =>
             if c' = '\n' then pySplitlinesAux [] rest'
             else pySplitlinesAux [] (c' :: rest')
         else pySplitlinesAux [] rest)
    else pySplitlinesAux (c :: cur) rest

/-- Python `str.splitlines()`: split at line boundaries, treating `\r\n` as a
single boundary and producing no trailing empty line. -/
def pySplitlines (s : List Char) : List (List Char) := pySplitlinesAux [] s

/-- Python `str.replace(p, rep)` for a one-character pattern `p`. -/
def replace1 (p : Char) (rep : List Char) : List Char → List Char
  | [] => []
  | c :: rest => if c = p then rep ++ replace1 p rep rest else c :: replace1 p rep rest

/-- Python `str.replace(p₀p₁, rep)` for a two-character pattern: leftmost,
non-overlapping occurrences. -/
def replace2 (p₀ p₁ : Char) (rep : List Char) : List Char → List Char
  | [] => []
  | [c] => [c]
  | c₀ :: c₁ :: rest =>
    if c₀ = p₀ ∧ c₁ = p₁ then rep ++ replace2 p₀ p₁ rep rest
    else c₀ :: replace2 p₀ p₁ rep (c₁ :: rest)

/-- Python `str.split(sep)` for a one-character separator `sep`. -/
def split1 (sep : Char) : List Char → List (List Char)
  | [] => [[]]
  | c :: rest =>
    if c = sep then [] :: split1 sep rest
    else
      match split1 sep rest with
      | [] => [[c]]
      | p :: ps => (c :: p) :: ps

/-- Python `str.split(s₀s₁)` for a two-character separator. -/
def split2 (s₀ s₁ : Char) : List Char → List (List Char)
  | [] => [[]]
  | [c] => [[c]]
  | c₀ :: c₁ :: rest =>
    if c₀ = s₀ ∧ c₁ = s₁ then [] :: split2 s₀ s₁ rest
    else
      match split2 s₀ s₁ (c₁ :: rest) with
      | [] => [[c₀]]
      | p :: ps => (c₀ :: p) :: ps

/-- Worker for `pySplitWs`; `cur` is the reversed current word. -/
def pySplitWsAux (cur : List Char) : List Char → List (List Char)
  | [] => if cur.isEmpty then [] else [cur.reverse]
  | c :: rest =>
    if pySpace c then
      if cur.isEmpty then pySplitWsAux [] rest
      else cur.reverse :: pySplitWsAux [] rest
    else pySplitWsAux (c :: cur) rest

/-- Python `str.split()` with no argument: split on whitespace runs,
producing no empty pieces. -/
def pySplitWs (s : List Char) : List (List Char) := pySplitWsAux [] s

/-- Python truthiness of the `question` variable in the parsers of
src/utils.py: `None` and the empty string are falsy. -/
def truthyStr : Option (List Char) → Bool
  | none => false
  | some s => !s.isEmpty

/-- A flashcard record `{question, answer}` (src/utils.py generate_flashcards). -/
structure Flashcard where
  question : List Char
  answer : List Char
deriving DecidableEq, Repr

/-- The line loop of `generate_flashcards` (src/utils.py lines 44-54): `Q:`
lines set the pending question, an `A:` line with a truthy pending question
appends a card, and the loop stops once `n` cards are collected. -/
def fcLoop (n : Nat) : List (List Char) → Option (List Char) → List Flashcard → List Flashcard
  | [], _, cards => cards
  | raw :: rest, question, cards =>
    let line := pyStrip raw
    if "Q:".data.isPrefixOf line then
      let question' := some (pyStrip (line.drop 2))
      if n ≤ cards.length then cards else fcLoop n rest question' cards
    else if "A:".data.isPrefixOf line && truthyStr question then
      let cards' := cards ++ [⟨(question.getD []), pyStrip (line.drop 2)⟩]
      if n ≤ cards'.length then cards' else fcLoop n rest none cards'
    else
      if n ≤ cards.length then cards else fcLoop n rest question cards

/-- The parsing part of `generate_flashcards` (src/utils.py): run the line
loop over `text.splitlines()` and truncate to `n` cards. -/
def generate_flashcards_parse (text : List Char) (n : Nat) : List Flashcard :=
  (fcLoop n (pySplitlines text) none []).take n

/-- Number of (stripped) lines of `text` starting with `Q:`; observation used
to compare card counts with the number of question lines. -/
def qLineCount (text : List Char) : Nat :=
  ((pySplitlines text).map pyStrip).countP (fun l => "Q:".data.isPrefixOf l)

/-- A quiz item `{question, options, answer}` (src/utils.py generate_quiz). -/
structure QuizItem where
  question : List Char
  options : List (List Char)
  answer : List Char
deriving DecidableEq, Repr

/-- The `Options:` line tokenizer of `generate_quiz` (src/utils.py lines
71-81): insert `|` before each literal marker `A)`-`D)`, split on `|`, drop
empty tokens, and strip a leading `X)` marker from each token. -/
def parseOptions (optsText : List Char) : List (List Char) :=
  let t := replace2 'A' ')' "|A)".data optsText
  let t := replace2 'B' ')' "|B)".data t
  let t := replace2 'C' ')' "|C)".data t
  let t := replace2 'D' ')' "|D)".data t
  let tokens := (split1 '|' t).filter (fun tk => !tk.isEmpty)
  tokens.map (fun tk =>
    let tk := pyStrip tk
    if 2 ≤ tk.length ∧ tk.get? 1 = some ')' then pyStrip (tk.drop 2) else tk)

/-- The line loop of `generate_quiz` (src/utils.py lines 66-87). -/
def quizLoop (n : Nat) :
    List (List Char) → Option (List Char) → List (List Char) → List QuizItem → List QuizItem
  | [], _, _, quizzes => quizzes
  | raw :: rest, question, options, quizzes =>
    let line := pyStrip raw
    if "Q:".data.isPrefixOf line then
      let question' := some (pyStrip (line.drop 2))
      if n ≤ quizzes.length then quizzes else quizLoop n rest question' options quizzes
    else if "Options:".data.isPrefixOf line then
      let options' := parseOptions (pyStrip (line.drop 8))
      if n ≤ quizzes.length then quizzes else quizLoop n rest question options' quizzes
    else if "Answer:".data.isPrefixOf line && truthyStr question then
      let quizzes' := quizzes ++ [⟨question.getD [], options.take 4, pyStrip (line.drop 7)⟩]
      if n ≤ quizzes'.length then quizzes' else quizLoop n rest none [] quizzes'
    else
      if n ≤ quizzes.length then quizzes else quizLoop n rest question options quizzes

/-- The parsing part of `generate_quiz` (src/utils.py): run the line loop
over `text.splitlines()` and truncate to `n` items. -/
def generate_quiz_parse (text : List Char) (n : Nat) : List QuizItem :=
  (quizLoop n (pySplitlines text) none [] []).take n

/-- The per-item scoring of the quiz tab (src/app.py line 532):
`result = "Correct" if user_ans == correct else "Wrong"`, where an unset
answer is Python `None`. -/
def quizResult (user_ans : Option (List Char)) (correct : List Char) : List Char :=
  if user_ans = some correct then "Correct".data else "Wrong".data

/-- CSV field escaping (src/app.py `csv_escape`): double embedded quotes,
flatten newlines to spaces, then strip. -/
def csv_escape (text : List Char) : List Char :=
  pyStrip (replace1 '\n' (" ".data) (replace1 '"' ("\"\"".data) text))

/-- One data row of the flashcard CSV export (src/app.py lines 450-452):
`'"{q}","{a}"\n'` with both fields passed through `csv_escape`. -/
def flashcardCsvRow (question answer : List Char) : List Char :=
  "\"".data ++ csv_escape question ++ "\",\"".data ++ csv_escape answer ++ "\"\n".data

/-- One data row of the quiz-results CSV export (src/app.py line 546):
`f'"{qtext_csv}",""{user_csv}"",""{corr_csv}"",""{result}""\n'.replace('""', '"')`
where the three fields were passed through `csv_escape` first. -/
def quizCsvRow (question : List Char) (user_ans : Option (List Char)) (correct : List Char) :
    List Char :=
  let qtext_csv := csv_escape question
  let user_csv := csv_escape (user_ans.getD [])
  let corr_csv := csv_escape correct
  let result := quizResult user_ans correct
  replace2 '"' '"' ("\"".data)
    ("\"".data ++ qtext_csv ++ "\",\"\"".data ++ user_csv ++ "\"\",\"\"".data ++
      corr_csv ++ "\"\",\"\"".data ++ result ++ "\"\"\n".data)

/-- Automaton for `_strip_html` (src/app.py line 181), i.e.
`re.sub(r"<[^>]+>", "", text)`: `buf` holds (reversed) the characters of a
candidate tag opened by `<` and not yet closed; a candidate of at least one
inner character closed by `>` is deleted, a `<>` or an unclosed candidate is
emitted verbatim. -/
def stripTagsAux (buf : Option (List Char)) : List Char → List Char
  | [] => (buf.getD []).reverse
  | c :: rest =>
    match buf with
    | none => if c = '<' then stripTagsAux (some ['<']) rest else c :: stripTagsAux none rest
    | some b =>
      if c = '>' then
        if 2 ≤ b.length then stripTagsAux none rest
        else b.reverse ++ '>' :: stripTagsAux none rest
      else stripTagsAux (some (c :: b)) rest

/-- `_strip_html` (src/app.py): remove `<...>` tag spans. -/
def strip_html (text : List Char) : List Char := stripTagsAux none text

/-- Locate the first `>` and return the remainder after it; models the forced
`[^>]*>` step of the `<p[^>]*>(.*?)</p>` pattern. -/
def findGt : List Char → Option (List Char)
  | [] => none
  | '>' :: rest => some rest
  | _ :: rest => findGt rest

/-- Locate the first `</p>` and return the captured text before it along with
the remainder after it; models the lazy `(.*?)</p>` step. -/
def findClose : List Char → Option (List Char × List Char)
  | '<' :: '/' :: 'p' :: '>' :: rest => some ([], rest)
  | c :: rest => (findClose rest).map (fun pr => (c :: pr.1, pr.2))
  | [] => none

/-- Fuelled scanner for `re.findall(r"<p[^>]*>(.*?)</p>", s, flags=re.S)`:
at each `<p`, consume up to the first `>` and capture lazily up to the first
`</p>`; on failure no later match can succeed inside the skipped region, so
scanning resumes one character further. -/
def paraFindallAux : Nat → List Char → List (List Char)
  | 0, _ => []
  | _ + 1, [] => []
  | _ + 1, [_] => []
  | fuel + 1, c₀ :: c₁ :: rest =>
    if c₀ = '<' ∧ c₁ = 'p' then
      match findGt rest with
      | none => paraFindallAux fuel rest
      | some afterGt =>
        match findClose afterGt with
        | none => paraFindallAux fuel rest
        | some (cap, rem) => cap :: paraFindallAux fuel rem
    else paraFindallAux fuel (c₁ :: rest)

/-- `re.findall(r"<p[^>]*>(.*?)</p>", s, flags=re.S)` as used by
`_split_paragraphs`. -/
def paraFindall (s : List Char) : List (List Char) := paraFindallAux (s.length + 1) s

/-- `_split_paragraphs` (src/app.py lines 183-187): HTML `<p>` blocks, or
blank-line-separated blocks as a fallback; keep the first three, strip
markup and whitespace. -/
def split_paragraphs (summary : List Char) : List (List Char) :=
  let paras := paraFindall summary
  let paras :=
    if paras.isEmpty then
      ((split2 '\n' '\n' summary).map pyStrip).filter (fun p => !p.isEmpty)
    else paras
  (paras.take 3).map (fun p => pyStrip (strip_html p))

/-- Character-level automaton for `re.split(r"(?<=[.!?])\\s+", s)` as written
in `_sentences` (src/app.py line 190).  In that raw string `\\s+` denotes a
literal backslash followed by one or more letters `s`, so the separator is
backslash-then-`s`-run preceded by sentence punctuation.  `inRun` is true
while consuming the greedy `s` run, `prev` is the previous character of the
input (for the lookbehind), `cur` the reversed current piece. -/
def sentScan (inRun : Bool) (prev : Char) (cur : List Char) : List Char → List (List Char)
  | [] => [cur.reverse]
  | c :: rest =>
    if inRun then
      if c = 's' then sentScan true 's' cur rest
      else sentScan false c (c :: cur) rest
    else
      match rest with
      | [] => [(c :: cur).reverse]
      | c₁ :: rest' =>
        if (prev = '.' ∨ prev = '!' ∨ prev = '?') ∧ c = '\\' ∧ c₁ = 's' then
          cur.reverse :: sentScan true 's' [] rest'
        else sentScan false c (c :: cur) (c₁ :: rest')

/-- `_sentences` (src/app.py lines 189-194): split the stripped text with the
(mis-escaped) separator pattern, strip the pieces, drop empty ones. -/
def sentences (s : List Char) : List (List Char) :=
  ((sentScan false ' ' [] (pyStrip s)).map pyStrip).filter (fun p => !p.isEmpty)

/-- `_shorten` (src/app.py lines 192-194): keep the first `maxWords` words,
appending an ellipsis when the sentence was longer. -/
def shorten (sentence : List Char) (maxWords : Nat) : List Char :=
  let words := pySplitWs sentence
  List.intercalate (" ".data) (words.take maxWords) ++
    (if maxWords < words.length then "…".data else [])

/-- The greedy line-packing loop of `_wrap_label` (src/app.py lines 196-204):
`lines` is the accumulator, `line` the line being filled. -/
def wrapGo (maxLen : Nat) : List (List Char) → List (List Char) → List Char → List (List Char)
  | [], lines, line => if line.isEmpty then lines else lines ++ [line]
  | w :: ws, lines, line =>
    if line.length + w.length + (if line.isEmpty then 0 else 1) ≤ maxLen then
      wrapGo maxLen ws lines (pyStrip (line ++ ' ' :: w))
    else wrapGo maxLen ws (lines ++ [line]) w

/-- The list of wrapped lines built by `_wrap_label` before joining. -/
def wrap_label_lines (text : List Char) (maxLen : Nat) : List (List Char) :=
  wrapGo maxLen (pySplitWs text) [] []

/-- `_wrap_label` (src/app.py): greedily packed lines joined with a literal
backslash-n (the DOT-label line separator). -/
def wrap_label (text : List Char) (maxLen : Nat) : List Char :=
  List.intercalate ("\\n".data) (wrap_label_lines text maxLen)

/-- Decimal digits of a natural number (Python `str(i)`), with fuel for
kernel-reducibility. -/
def natToCharsAux : Nat → Nat → List Char → List Char
  | 0, _, acc => acc
  | fuel + 1, n, acc =>
    let d := Char.ofNat (48 + n % 10)
    if n < 10 then d :: acc else natToCharsAux fuel (n / 10) (d :: acc)

/-- Decimal rendering of a natural number, as Python `str(i)` inside the
f-strings of `build_summary_dot`. -/
def natToChars (n : Nat) : List Char := natToCharsAux (n + 1) n []

/-- The three fixed branch headings of `build_summary_dot` (src/app.py). -/
def heads : List (List Char) :=
  ["Definition & Building Blocks".data,
   "Architecture • Security • Ops".data,
   "Use Cases • Benefits • Costs".data]

/-- The leaf declaration and edge lines emitted under branch `i` of
`build_summary_dot` (src/app.py lines 223-228). -/
def leafLines (paras : List (List Char)) (leavesPerPara wrapLen i : Nat) : List (List Char) :=
  if i < paras.length then
    (((sentences (paras.getD i [])).take leavesPerPara).enum.map (fun p =>
      ["l".data ++ natToChars i ++ "_".data ++ natToChars p.1 ++ " [label=\"".data ++
         wrap_label (shorten p.2 12) wrapLen ++
         "\", fillcolor=\"#0f172a\", color=\"#334155\"];".data,
       "b".data ++ natToChars i ++ " -> l".data ++ natToChars i ++ "_".data ++
         natToChars p.1 ++ ";".data])).flatten
  else []

/-- The list `g` of output lines built by `build_summary_dot`
(src/app.py lines 206-230) before joining with newlines. -/
def build_summary_dot_lines (topic summary : List Char) (leavesPerPara wrapLen : Nat)
    (orientation : List Char) : List (List Char) :=
  let paras := split_paragraphs summary
  ["digraph G \x7b".data,
   "graph [rankdir=".data ++ orientation ++
     ", splines=true, overlap=false, nodesep=0.4, ranksep=0.7, margin=0.1];".data,
   "node [shape=box, style=filled, fillcolor=\"#111827\", color=\"#3b82f6\", fontname=\"Helvetica\", fontsize=11, fontcolor=\"#e5e7eb\"];".data,
   "root [label=\"".data ++ wrap_label topic wrapLen ++
     "\", shape=oval, fillcolor=\"#1f2937\", fontsize=14, penwidth=2, color=\"#60a5fa\"];".data] ++
  (heads.enum.map (fun p =>
    ["b".data ++ natToChars p.1 ++ " [label=\"".data ++ wrap_label p.2 wrapLen ++
       "\", fillcolor=\"#0b1320\", fontsize=12, color=\"#93c5fd\"];".data,
     "root -> b".data ++ natToChars p.1 ++ ";".data] ++
    leafLines paras leavesPerPara wrapLen p.1)).flatten ++
  ["\x7d".data]

/-- `build_summary_dot` (src/app.py): the graph description text. -/
def build_summary_dot (topic summary : List Char) (leavesPerPara wrapLen : Nat)
    (orientation : List Char) : List Char :=
  List.intercalate ("\n".data) (build_summary_dot_lines topic summary leavesPerPara wrapLen orientation)

/-- Observation: number of leaf declaration lines (`l{i}_{j} [label=...`);
these are exactly the output lines starting with the letter `l`. -/
def leafDeclCount (lines : List (List Char)) : Nat :=
  lines.countP (fun l => l.head? = some 'l')

/-- Shape predicate behind C1/C5: `QA st lines cs k d` says that the stripped
lines of `lines`, ignoring lines that start with neither `Q:` nor `A:`, form
an alternating sequence of `Q:` lines (each with nonempty content) and `A:`
lines; `st` is the pending question on entry, `cs` the cards the sequence
closes, `k` the number of `Q:` lines, and `d` the number of `Q:` lines whose
question is dropped for lack of a closing `A:` line. -/
inductive QA : Option (List Char) → List (List Char) → List Flashcard → Nat → Nat → Prop where
  | nil : QA none [] [] 0 0
  | junk (st : Option (List Char)) (l : List Char) (ls : List (List Char))
      (cs : List Flashcard) (k d : Nat) :
      "Q:".data.isPrefixOf (pyStrip l) = false → "A:".data.isPrefixOf (pyStrip l) = false →
      QA st ls cs k d → QA st (l :: ls) cs k d
  | qNew (l : List Char) (ls : List (List Char)) (cs : List Flashcard) (k d : Nat) :
      "Q:".data.isPrefixOf (pyStrip l) = true → pyStrip ((pyStrip l).drop 2) ≠ [] →
      QA (some (pyStrip ((pyStrip l).drop 2))) ls cs k d → QA none (l :: ls) cs (k + 1) d
  | qDrop (q l : List Char) (ls : List (List Char)) (cs : List Flashcard) (k d : Nat) :
      "Q:".data.isPrefixOf (pyStrip l) = true → pyStrip ((pyStrip l).drop 2) ≠ [] →
      QA (some (pyStrip ((pyStrip l).drop 2))) ls cs k d →
      QA (some q) (l :: ls) cs (k + 1) (d + 1)
  | ans (q l : List Char) (ls : List (List Char)) (cs : List Flashcard) (k d : Nat) :
      "A:".data.isPrefixOf (pyStrip l) = true →
      QA none ls cs k d →
      QA (some q) (l :: ls) (⟨q, pyStrip ((pyStrip l).drop 2)⟩ :: cs) k d
  | stop (q : List Char) : QA (some q) [] [] 0 1

section StringLemmas

variable {p : Char → Bool}

theorem dropWhile_head_not {l : List Char} {c : Char} {t : List Char}
    (h : l.dropWhile p = c :: t) : p c = false := by
  induction l with
  | nil => simp [List.dropWhile] at h
  | cons a l ih =>
    rw [List.dropWhile_cons] at h
    by_cases hp : p a
    · exact ih (by simpa [hp] using h)
    · simp [hp] at h
      simp [← h.1, hp]

theorem dropWhile_idem (l : List Char) : (l.dropWhile p).dropWhile p = l.dropWhile p := by
  cases h : l.dropWhile p with
  | nil => simp
  | cons c t => rw [List.dropWhile_cons, dropWhile_head_not h]; simp

theorem stripLeft_sublist (s : List Char) : List.Sublist (stripLeft s) s :=
  (List.dropWhile_suffix pySpace).sublist

theorem stripRight_isPrefix (s : List Char) : stripRight s <+: s := by
  have h : s.reverse.dropWhile pySpace <:+ s.reverse := List.dropWhile_suffix pySpace
  have := List.reverse_prefix.mpr h
  simpa [stripRight] using this

theorem stripRight_sublist (s : List Char) : List.Sublist (stripRight s) s :=
  (stripRight_isPrefix s).sublist

theorem pyStrip_sublist (s : List Char) : List.Sublist (pyStrip s) s :=
  (stripRight_sublist (stripLeft s)).trans (stripLeft_sublist s)

theorem mem_of_mem_pyStrip {c : Char} {s : List Char} (h : c ∈ pyStrip s) : c ∈ s :=
  (pyStrip_sublist s).subset h

theorem stripLeft_cons_of_space {c : Char} (h : pySpace c = true) (s : List Char) :
    stripLeft (c :: s) = stripLeft s := by
  simp [stripLeft, List.dropWhile_cons, h]

theorem stripLeft_cons_of_not_space {c : Char} (h : pySpace c = false) (s : List Char) :
    stripLeft (c :: s) = c :: s := by
  simp [stripLeft, List.dropWhile_cons, h]

theorem stripLeft_head_not_space {s : List Char} {c : Char} {t : List Char}
    (h : stripLeft s = c :: t) : pySpace c = false :=
  dropWhile_head_not h

theorem stripRight_append_space {c : Char} (h : pySpace c = true) (s : List Char) :
    stripRight (s ++ [c]) = stripRight s := by
  simp [stripRight, List.dropWhile_cons, h]

theorem stripRight_eq_self_of_last {s : List Char} {c : Char} {t : List Char}
    (hrev : s.reverse = c :: t) (hc : pySpace c = false) : stripRight s = s := by
  rw [stripRight, hrev, List.dropWhile_cons, hc]
  simp [← hrev]

theorem stripRight_last_not_space {s : List Char} (hne : stripRight s ≠ []) :
    ∃ c t, (stripRight s).reverse = c :: t ∧ pySpace c = false := by
  rw [stripRight] at hne ⊢
  cases h : s.reverse.dropWhile pySpace with
  | nil => simp [h] at hne
  | cons c t =>
    refine ⟨c, t, ?_, dropWhile_head_not h⟩
    simp [h]

theorem stripRight_append {u v : List Char} (hv : stripRight v = v) (hne : v ≠ []) :
    stripRight (u ++ v) = u ++ v := by
  have hvne : stripRight v ≠ [] := by rw [hv]; exact hne
  obtain ⟨c, t, hrev, hc⟩ := stripRight_last_not_space hvne
  rw [hv] at hrev
  have : (u ++ v).reverse = c :: (t ++ u.reverse) := by
    rw [List.reverse_append, hrev]; simp
  exact stripRight_eq_self_of_last this hc

theorem stripRight_idem (s : List Char) : stripRight (stripRight s) = stripRight s := by
  by_cases h : stripRight s = []
  · rw [h]; rfl
  · obtain ⟨c, t, hrev, hc⟩ := stripRight_last_not_space h
    exact stripRight_eq_self_of_last hrev hc

theorem stripLeft_of_pyStrip (s : List Char) : stripLeft (pyStrip s) = pyStrip s := by
  cases h : pyStrip s with
  | nil => rfl
  | cons c t =>
    have hpre : pyStrip s <+: stripLeft s := stripRight_isPrefix (stripLeft s)
    rw [h] at hpre
    obtain ⟨t', ht'⟩ := hpre
    have hsl : stripLeft s = c :: (t ++ t') := by rw [← ht']; rfl
    have hc : pySpace c = false := stripLeft_head_not_space hsl
    rw [stripLeft_cons_of_not_space hc]

theorem pyStrip_idem (s : List Char) : pyStrip (pyStrip s) = pyStrip s := by
  rw [pyStrip, stripLeft_of_pyStrip]
  rw [pyStrip, stripRight_idem]

theorem stripLeft_of_trimmed {s : List Char} (h : pyStrip s = s) : stripLeft s = s := by
  have h1 : (pyStrip s).length ≤ (stripLeft s).length :=
    (stripRight_sublist (stripLeft s)).length_le
  have h2 : (stripLeft s).length ≤ s.length := (stripLeft_sublist s).length_le
  have h3 : (stripLeft s).length = s.length := by
    have := congrArg List.length h
    omega
  exact (stripLeft_sublist s).eq_of_length h3

theorem stripRight_of_trimmed {s : List Char} (h : pyStrip s = s) : stripRight s = s := by
  have h1 := stripLeft_of_trimmed h
  rw [pyStrip, h1] at h
  exact h

/-- Strip a string that starts and ends with nonempty trimmed content:
`pyStrip (u ++ v) = u ++ v` whenever `u` starts with a non-space character
and `v` is trimmed and nonempty. -/
theorem pyStrip_of_head_last {c : Char} {u v : List Char} (hc : pySpace c = false)
    (hv : pyStrip v = v) (hne : v ≠ []) : pyStrip (c :: (u ++ v)) = c :: (u ++ v) := by
  rw [pyStrip, stripLeft_cons_of_not_space hc]
  exact @stripRight_append (c :: u) v (stripRight_of_trimmed hv) hne

/-- Strip after a leading space: `pyStrip (' ' :: v) = v` for trimmed `v`. -/
theorem pyStrip_space_cons {v : List Char} (hv : pyStrip v = v) :
    pyStrip (' ' :: v) = v := by
  rw [pyStrip, stripLeft_cons_of_space (by decide), stripLeft_of_trimmed hv]
  exact stripRight_of_trimmed hv

theorem replace1_of_not_mem {q : Char} {rep s : List Char} (h : q ∉ s) :
    replace1 q rep s = s := by
  induction s with
  | nil => rfl
  | cons c rest ih =>
    have hc : ¬(c = q) := fun e => h (by simp [e])
    rw [replace1, if_neg hc, ih (fun hm => h (List.mem_cons_of_mem _ hm))]

theorem csv_escape_of_clean {s : List Char} (hq : '"' ∉ s) (hn : '\n' ∉ s) :
    csv_escape s = pyStrip s := by
  rw [csv_escape, replace1_of_not_mem hq, replace1_of_not_mem hn]

end StringLemmas

/-- C8: `csv_escape` is idempotent on text containing no double quote and no
newline, and the concrete field `He said "hi"\nbye` escapes to
`He said ""hi"" bye` (quotes doubled, newline flattened to a space). -/
theorem csv_escape_idem_and_example :
    (∀ s : List Char, '"' ∉ s → '\n' ∉ s → csv_escape (csv_escape s) = csv_escape s) ∧
    csv_escape ("He said \"hi\"\nbye".data) = "He said \"\"hi\"\" bye".data := by
  constructor
  · intro s hq hn
    have h1 : csv_escape s = pyStrip s := csv_escape_of_clean hq hn
    have hq2 : '"' ∉ pyStrip s := fun hm => hq (mem_of_mem_pyStrip hm)
    have hn2 : '\n' ∉ pyStrip s := fun hm => hn (mem_of_mem_pyStrip hm)
    rw [h1, csv_escape_of_clean hq2 hn2, pyStrip_idem]
  · decide

/-- Witness for C8: the idempotence part applied at the concrete clean
field `ab`. -/
theorem csv_escape_idem_and_example_witness :
    csv_escape (csv_escape ("ab".data)) = csv_escape ("ab".data) :=
  csv_escape_idem_and_example.1 ("ab".data) (by decide) (by decide)

section FlashcardLemmas

/-- A stripped line that starts with `A:` does not start with `Q:`. -/
theorem notQ_of_A {s : List Char} (h : "A:".data.isPrefixOf s = true) :
    "Q:".data.isPrefixOf s = false := by
  rw [List.isPrefixOf_iff_prefix] at h
  obtain ⟨t, ht⟩ := h
  rw [← ht]
  rfl

/-- Cards closed plus questions dropped account for all `Q:` lines (plus the
pending question, when there is one). -/
theorem QA_count {st : Option (List Char)} {lines : List (List Char)}
    {cs : List Flashcard} {k d : Nat} (h : QA st lines cs k d) :
    cs.length + d = k + (if st.isSome then 1 else 0) := by
  induction h with
  | nil => rfl
  | junk st l ls cs k d _ _ _ ih => exact ih
  | qNew l ls cs k d _ _ _ ih => simp at ih ⊢; omega
  | qDrop q l ls cs k d _ _ _ ih => simp at ih ⊢; omega
  | ans q l ls cs k d _ _ ih => simp at ih ⊢; omega
  | stop q => rfl

/-- Main loop invariant for `generate_flashcards`: on a `QA`-shaped tail the
loop appends exactly the closed cards, provided they still fit under `n`. -/
theorem fcLoop_of_QA {st : Option (List Char)} {lines : List (List Char)}
    {cs : List Flashcard} {k d : Nat} (h : QA st lines cs k d) :
    ∀ n acc, (∀ q, st = some q → q ≠ []) → acc.length + cs.length ≤ n →
      fcLoop n lines st acc = acc ++ cs := by
  induction h with
  | nil => intro n acc _ _; simp [fcLoop]
  | junk st l ls cs k d hq ha _ ih =>
    intro n acc hst hlen
    have hcond : ("A:".data.isPrefixOf (pyStrip l) && truthyStr st) = false := by
      rw [ha]; rfl
    simp only [fcLoop, hq, hcond, Bool.false_eq_true, if_false]
    by_cases hle : n ≤ acc.length
    · have hcs : cs = [] := List.length_eq_zero.mp (by omega)
      subst hcs; simp [hle]
    · rw [if_neg hle, ih n acc hst hlen]
  | qNew l ls cs k d hq hne _ ih =>
    intro n acc _ hlen
    simp only [fcLoop, hq, if_true]
    by_cases hle : n ≤ acc.length
    · have hcs : cs = [] := List.length_eq_zero.mp (by omega)
      subst hcs; simp [hle]
    · rw [if_neg hle, ih n acc (fun q' hq' => by injection hq' with e; rw [← e]; exact hne) hlen]
  | qDrop q l ls cs k d hq hne _ ih =>
    intro n acc _ hlen
    simp only [fcLoop, hq, if_true]
    by_cases hle : n ≤ acc.length
    · have hcs : cs = [] := List.length_eq_zero.mp (by omega)
      subst hcs; simp [hle]
    · rw [if_neg hle, ih n acc (fun q' hq' => by injection hq' with e; rw [← e]; exact hne) hlen]
  | ans q l ls cs k d ha _ ih =>
    intro n acc hst hlen
    have hq : "Q:".data.isPrefixOf (pyStrip l) = false := notQ_of_A ha
    have htr : truthyStr (some q) = true := by
      have : q ≠ [] := hst q rfl
      simp [truthyStr, List.isEmpty_iff, this]
    have hcond : ("A:".data.isPrefixOf (pyStrip l) && truthyStr (some q)) = true := by
      rw [ha, htr]; rfl
    simp only [fcLoop, hq, hcond, Bool.false_eq_true, if_false, if_true, Option.getD_some]
    simp only [List.length_append, List.length_cons, List.length_nil]
    by_cases hle : n ≤ acc.length + 1
    · have hcs : cs = [] := List.length_eq_zero.mp (by simp at hlen; omega)
      subst hcs
      rw [if_pos (by simpa using hle)]
    · rw [if_neg (by simpa using hle)]
      rw [ih n (acc ++ [⟨q, pyStrip ((pyStrip l).drop 2)⟩]) (fun q' hq' => nomatch hq')
        (by simp at hlen ⊢; omega)]
      simp
  | stop q =>
    intro n acc _ _
    simp [fcLoop]

end FlashcardLemmas

/-- C1 (amended): for a model reply whose stripped `Q:`- and `A:`-prefixed lines
form exactly `n` strictly alternating question/answer pairs — each question
with nonempty trimmed content — interleaved with arbitrary other lines, the
flashcard parser returns exactly those `n` {question, answer} pairs in source
order with prefixes stripped and whitespace trimmed (the pairs recorded by
the `QA` shape predicate). -/
theorem flashcards_alternating (text : List Char) (n : Nat) (cs : List Flashcard)
    (h : QA none (pySplitlines text) cs n 0) :
    generate_flashcards_parse text n = cs ∧ cs.length = n := by
  have hcount := QA_count h
  simp at hcount
  constructor
  · rw [generate_flashcards_parse,
      fcLoop_of_QA h n [] (fun q hq => nomatch hq) (by simp; omega)]
    simp [List.take_of_length_le, hcount.le]
  · exact hcount

/-- Counterexample to C1 as stated: `Q:\nA: x` contains exactly one
alternating pair of a `Q:`-prefixed and an `A:`-prefixed line, but the parser
returns no card — the empty question text is falsy in
`line.startswith("A:") and question`. -/
theorem flashcards_alternating_cex :
    generate_flashcards_parse ("Q:\nA: x".data) 1 = [] ∧
    qLineCount ("Q:\nA: x".data) = 1 := by
  exact ⟨by decide, by decide⟩

/-- Witness for C1: two clean alternating pairs parse to the two cards. -/
theorem flashcards_alternating_witness :
    generate_flashcards_parse ("Q: a\nA: b\nQ: c\nA: d".data) 2 =
      [⟨"a".data, "b".data⟩, ⟨"c".data, "d".data⟩] ∧
    ([⟨"a".data, "b".data⟩, ⟨"c".data, "d".data⟩] : List Flashcard).length = 2 :=
  flashcards_alternating ("Q: a\nA: b\nQ: c\nA: d".data) 2
    [⟨"a".data, "b".data⟩, ⟨"c".data, "d".data⟩] (by
      have hsplit : pySplitlines ("Q: a\nA: b\nQ: c\nA: d".data) =
          ["Q: a".data, "A: b".data, "Q: c".data, "A: d".data] := by decide
      rw [hsplit]
      refine QA.qNew _ _ _ _ _ (by decide) (by decide) ?_
      show QA (some ("a".data)) ["A: b".data, "Q: c".data, "A: d".data]
        (⟨"a".data, pyStrip ((pyStrip ("A: b".data)).drop 2)⟩ :: [⟨"c".data, "d".data⟩]) 1 0
      refine QA.ans _ _ _ _ _ _ (by decide) ?_
      refine QA.qNew _ _ _ _ _ (by decide) (by decide) ?_
      show QA (some ("c".data)) ["A: d".data]
        (⟨"c".data, pyStrip ((pyStrip ("A: d".data)).drop 2)⟩ :: []) 0 0
      refine QA.ans _ _ _ _ _ _ (by decide) ?_
      exact QA.nil)

/-- C5 (amended): on a reply whose stripped `Q:`- and `A:`-prefixed lines
alternate except for exactly one `Q:` line with no following `A:` line
(before the next `Q:` line or the end of the text), with every question
nonempty after trimming and the requested count `n` at least the number of
complete pairs, the parser returns one card fewer than the number of `Q:`
lines, silently dropping the unterminated question. -/
theorem flashcards_dangling (text : List Char) (n k : Nat) (cs : List Flashcard)
    (h : QA none (pySplitlines text) cs k 1) (hn : k ≤ n + 1) :
    generate_flashcards_parse text n = cs ∧ cs.length + 1 = k := by
  have hcount := QA_count h
  simp at hcount
  constructor
  · rw [generate_flashcards_parse,
      fcLoop_of_QA h n [] (fun q hq => nomatch hq) (by simp; omega)]
    exact List.take_of_length_le (by simp only [List.nil_append]; omega)
  · exact hcount

/-- Counterexample to C5 as stated: in `Q:\nA: 1\nQ: c` the final `Q: c` is
the only unterminated question and there are two `Q:` lines, yet the parser
returns zero cards, not one (the first question is empty, hence falsy); and
with requested count 1 the reply `Q: a\nA: 1\nQ: b\nA: 2\nQ: c` has three
`Q:` lines and one unterminated question, yet only one card is returned. -/
theorem flashcards_dangling_cex :
    (generate_flashcards_parse ("Q:\nA: 1\nQ: c".data) 10 = [] ∧
      qLineCount ("Q:\nA: 1\nQ: c".data) = 2) ∧
    (generate_flashcards_parse ("Q: a\nA: 1\nQ: b\nA: 2\nQ: c".data) 1 =
        [⟨"a".data, "1".data⟩] ∧
      qLineCount ("Q: a\nA: 1\nQ: b\nA: 2\nQ: c".data) = 3) := by
  exact ⟨⟨by decide, by decide⟩, by decide, by decide⟩

/-- Witness for C5: one complete pair followed by a trailing dangling `Q:`. -/
theorem flashcards_dangling_witness :
    generate_flashcards_parse ("Q: a\nA: b\nQ: c".data) 5 = [⟨"a".data, "b".data⟩] ∧
    ([⟨"a".data, "b".data⟩] : List Flashcard).length + 1 = 2 :=
  flashcards_dangling ("Q: a\nA: b\nQ: c".data) 5 2 [⟨"a".data, "b".data⟩] (by
    have hsplit : pySplitlines ("Q: a\nA: b\nQ: c".data) =
        ["Q: a".data, "A: b".data, "Q: c".data] := by decide
    rw [hsplit]
    refine QA.qNew _ _ _ _ _ (by decide) (by decide) ?_
    show QA (some ("a".data)) ["A: b".data, "Q: c".data]
      (⟨"a".data, pyStrip ((pyStrip ("A: b".data)).drop 2)⟩ :: []) 1 1
    refine QA.ans _ _ _ _ _ _ (by decide) ?_
    refine QA.qNew _ _ _ _ _ (by decide) (by decide) ?_
    show QA (some ("c".data)) [] [] 0 1
    exact QA.stop _) (by omega)

section QuizLemmas

/-- Every item accumulated by the quiz line loop keeps at most 4 options:
the append site slices with `options[:4]`. -/
theorem quizLoop_options_le (lines : List (List Char)) :
    ∀ (n : Nat) (question : Option (List Char)) (options : List (List Char))
      (acc : List QuizItem),
      (∀ item ∈ acc, item.options.length ≤ 4) →
      ∀ item ∈ quizLoop n lines question options acc, item.options.length ≤ 4 := by
  induction lines with
  | nil =>
    intro n q o acc hacc item hm
    rw [quizLoop] at hm
    exact hacc item hm
  | cons l ls ih =>
    intro n q o acc hacc item hm
    simp only [quizLoop] at hm
    by_cases h1 : "Q:".data.isPrefixOf (pyStrip l) = true
    · simp only [h1, if_true] at hm
      by_cases hle : n ≤ acc.length
      · rw [if_pos hle] at hm; exact hacc item hm
      · rw [if_neg hle] at hm; exact ih n _ o acc hacc item hm
    · simp only [h1, Bool.false_eq_true, if_false] at hm
      by_cases h2 : "Options:".data.isPrefixOf (pyStrip l) = true
      · simp only [h2, if_true] at hm
        by_cases hle : n ≤ acc.length
        · rw [if_pos hle] at hm; exact hacc item hm
        · rw [if_neg hle] at hm; exact ih n q _ acc hacc item hm
      · simp only [h2, Bool.false_eq_true, if_false] at hm
        by_cases h3 : ("Answer:".data.isPrefixOf (pyStrip l) && truthyStr q) = true
        · simp only [h3, if_true] at hm
          have hacc' : ∀ it ∈ acc ++ [⟨q.getD [], o.take 4, pyStrip ((pyStrip l).drop 7)⟩],
              it.options.length ≤ 4 := by
            intro it hit
            rcases List.mem_append.mp hit with hin | hin
            · exact hacc it hin
            · have : it = ⟨q.getD [], o.take 4, pyStrip ((pyStrip l).drop 7)⟩ := by
                simpa using hin
              rw [this]
              simp [List.length_take]
          by_cases hle :
            n ≤ (acc ++ [(⟨q.getD [], o.take 4, pyStrip ((pyStrip l).drop 7)⟩ : QuizItem)]).length
          · rw [if_pos hle] at hm; exact hacc' item hm
          · rw [if_neg hle] at hm; exact ih n none [] _ hacc' item hm
        · simp only [h3, Bool.false_eq_true, if_false] at hm
          by_cases hle : n ≤ acc.length
          · rw [if_pos hle] at hm; exact hacc item hm
          · rw [if_neg hle] at hm; exact ih n q o acc hacc item hm

end QuizLemmas

/-- C3 (amended): every quiz item produced by the parser carries at most 4
option strings — the `Options:` line is split on the `A)`-`D)` markers with
markers stripped, overflow truncated by `options[:4]`, and underflow left
short rather than padded to 4. -/
theorem quiz_options_at_most_four (text : List Char) (n : Nat) (item : QuizItem)
    (hm : item ∈ generate_quiz_parse text n) : item.options.length ≤ 4 :=
  quizLoop_options_le (pySplitlines text) n none [] [] (by simp) item
    ((List.take_sublist n _).subset hm)

/-- Counterexample to C3 as stated: an `Options:` line supplying only two
markers yields an item with 2 option strings, not 4. -/
theorem quiz_options_at_most_four_cex :
    (generate_quiz_parse ("Q: q\nOptions: A) x B) y\nAnswer: x".data) 1).map
      (fun item => item.options.length) = [2] := by decide

/-- Witness for C3: an `Options:` line with five markers is truncated to the
first four options. -/
theorem quiz_options_at_most_four_witness :
    (⟨"q".data, ["a".data, "b".data, "c".data, "d".data], "a".data⟩ : QuizItem).options.length ≤ 4 :=
  quiz_options_at_most_four ("Q: q\nOptions: A) a B) b C) c D) d D) e\nAnswer: a".data) 1
    ⟨"q".data, ["a".data, "b".data, "c".data, "d".data], "a".data⟩ (by decide)

/-- C4: a parsed quiz item whose answer text equals none of its listed
options is scored "Wrong" for every user choice drawn from those options and
for the unset (None) choice. -/
theorem quiz_mismatched_answer_wrong (text : List Char) (n : Nat) (item : QuizItem)
    (hm : item ∈ generate_quiz_parse text n) (hmis : item.answer ∉ item.options)
    (choice : Option (List Char))
    (hchoice : choice = none ∨ ∃ o ∈ item.options, choice = some o) :
    quizResult choice item.answer = "Wrong".data := by
  have hne : choice ≠ some item.answer := by
    rcases hchoice with rfl | ⟨o, ho, rfl⟩
    · exact fun h => nomatch h
    · intro h
      injection h with e
      exact hmis (e ▸ ho)
  rw [quizResult, if_neg hne]

/-- Witness for C4: answer `e` matches no option of `a b c d`; choosing `a`
scores "Wrong". -/
theorem quiz_mismatched_answer_wrong_witness :
    quizResult (some ("a".data)) ("e".data) = "Wrong".data :=
  quiz_mismatched_answer_wrong ("Q: q\nOptions: A) a B) b C) c D) d\nAnswer: e".data) 1
    ⟨"q".data, ["a".data, "b".data, "c".data, "d".data], "e".data⟩ (by decide) (by decide)
    (some ("a".data)) (Or.inr ⟨"a".data, by decide, rfl⟩)

section WrapLemmas

theorem pyStrip_length_le (s : List Char) : (pyStrip s).length ≤ s.length :=
  (pyStrip_sublist s).length_le

theorem pyStrip_space_cons_eq (w : List Char) : pyStrip (' ' :: w) = pyStrip w := by
  rw [pyStrip, stripLeft_cons_of_space (by decide)]
  rfl

/-- Invariant of the `_wrap_label` packing loop: every emitted line is within
the limit or is a single input word longer than the limit. -/
theorem wrapGo_invariant (maxLen : Nat) (words₀ : List (List Char)) :
    ∀ (ws lines : List (List Char)) (line : List Char),
      (∀ w ∈ ws, w ∈ words₀) →
      (∀ l ∈ lines, l.length ≤ maxLen ∨ (l ∈ words₀ ∧ maxLen < l.length)) →
      (line = [] ∨ line.length ≤ maxLen ∨ (line ∈ words₀ ∧ maxLen < line.length)) →
      ∀ l ∈ wrapGo maxLen ws lines line,
        l.length ≤ maxLen ∨ (l ∈ words₀ ∧ maxLen < l.length) := by
  intro ws
  induction ws with
  | nil =>
    intro lines line hws hlines hline l hm
    rw [wrapGo] at hm
    by_cases he : line.isEmpty
    · rw [if_pos he] at hm; exact hlines l hm
    · rw [if_neg he] at hm
      rcases List.mem_append.mp hm with hin | hin
      · exact hlines l hin
      · have hl : l = line := by simpa using hin
        subst hl
        rcases hline with h0 | h | h
        · rw [h0] at he
          exact absurd (rfl : ([] : List Char).isEmpty = true) he
        · exact Or.inl h
        · exact Or.inr h
  | cons w ws ih =>
    intro lines line hws hlines hline l hm
    rw [wrapGo] at hm
    by_cases hcond : line.length + w.length + (if line.isEmpty then 0 else 1) ≤ maxLen
    · rw [if_pos hcond] at hm
      refine ih lines (pyStrip (line ++ ' ' :: w)) (fun x hx => hws x (List.mem_cons_of_mem _ hx))
        hlines (Or.inr (Or.inl ?_)) l hm
      by_cases he : line.isEmpty
      · have h0 : line = [] := by simpa using he
        subst h0
        calc (pyStrip ([] ++ ' ' :: w)).length = (pyStrip w).length := by
              rw [List.nil_append, pyStrip_space_cons_eq]
          _ ≤ w.length := pyStrip_length_le w
          _ ≤ maxLen := by simpa [he] using hcond
      · calc (pyStrip (line ++ ' ' :: w)).length ≤ (line ++ ' ' :: w).length :=
              pyStrip_length_le _
          _ = line.length + w.length + 1 := by simp [List.length_append]; omega
          _ ≤ maxLen := by simpa [he] using hcond
    · rw [if_neg hcond] at hm
      have hlines' : ∀ x ∈ lines ++ [line],
          x.length ≤ maxLen ∨ (x ∈ words₀ ∧ maxLen < x.length) := by
        intro x hx
        rcases List.mem_append.mp hx with hin | hin
        · exact hlines x hin
        · have hxl : x = line := by simpa using hin
          subst hxl
          rcases hline with h0 | h | h
          · rw [h0]; exact Or.inl (by simp)
          · exact Or.inl h
          · exact Or.inr h
      have hwmem : w ∈ words₀ := hws w (List.mem_cons_self _ _)
      refine ih (lines ++ [line]) w (fun x hx => hws x (List.mem_cons_of_mem _ hx))
        hlines' ?_ l hm
      by_cases hwl : w.length ≤ maxLen
      · exact Or.inr (Or.inl hwl)
      · exact Or.inr (Or.inr ⟨hwmem, by omega⟩)

end WrapLemmas

/-- C9: each line produced by `_wrap_label`'s packing loop is at most
`maxLen` characters long, except that a single word exceeding the limit is
kept unbroken as its own line. -/
theorem wrap_label_line_bound (text : List Char) (maxLen : Nat) (l : List Char)
    (hm : l ∈ wrap_label_lines text maxLen) :
    l.length ≤ maxLen ∨ (l ∈ pySplitWs text ∧ maxLen < l.length) :=
  wrapGo_invariant maxLen (pySplitWs text) (pySplitWs text) [] []
    (fun w hw => hw) (by simp) (Or.inl rfl) l hm

/-- Witness for C9: wrapping `hello world` at width 5 produces the line
`hello`, which satisfies the bound. -/
theorem wrap_label_line_bound_witness :
    ("hello".data).length ≤ 5 ∨
      ("hello".data ∈ pySplitWs ("hello world".data) ∧ 5 < ("hello".data).length) :=
  wrap_label_line_bound ("hello world".data) 5 ("hello".data) (by decide)

/-- C6 (code bug): in `_sentences` the raw-string pattern `(?<=[.!?])\\s+`
denotes a literal backslash followed by letters `s`, not punctuation followed
by whitespace, so `Cats purr. Dogs bark.` is never split, and a summary of
three two-sentence paragraphs produces one leaf line per branch (3 leaf
declaration lines in the graph text) instead of two per branch. -/
theorem build_summary_dot_sentences_bug :
    sentences ("Cats purr. Dogs bark.".data) = ["Cats purr. Dogs bark.".data] ∧
    leafDeclCount (build_summary_dot_lines ("T".data)
      ("One. Two.\n\nThree. Four.\n\nFive. Six.".data) 4 24 ("TB".data)) = 3 := by
  exact ⟨by decide, by decide⟩

/-- C7 (code bug): the quiz-results row writer escapes each field with
`csv_escape` but then applies `.replace('""', '"')` to the whole row, which
collapses the doubled quotes inside the fields again: for the question
`He said "hi"` the emitted row carries the unescaped text `He said "hi"`,
although `csv_escape` yields `He said ""hi""` and a row escaped like the
flashcard export would keep the doubled quotes. -/
theorem quiz_csv_row_unescapes :
    quizCsvRow ("He said \"hi\"".data) (some ("a".data)) ("b".data) =
      "\"He said \"hi\"\",\"a\",\"b\",\"Wrong\"\n".data ∧
    csv_escape ("He said \"hi\"".data) = "He said \"\"hi\"\"".data ∧
    quizCsvRow ("He said \"hi\"".data) (some ("a".data)) ("b".data) ≠
      "\"".data ++ csv_escape ("He said \"hi\"".data) ++ "\",\"a\",\"b\",\"Wrong\"\n".data := by
  exact ⟨by decide, by decide, by decide⟩

section DiagramLemmas

/-- Without `<` in the input there is no `<p...>...</p>` match. -/
theorem paraFindallAux_no_lt :
    ∀ (fuel : Nat) (s : List Char), '<' ∉ s → paraFindallAux fuel s = [] := by
  intro fuel
  induction fuel with
  | zero => intro s _; rfl
  | succ fuel ih =>
    intro s h
    cases s with
    | nil => rfl
    | cons c₀ t =>
      cases t with
      | nil => rfl
      | cons c₁ rest =>
        have hc : ¬(c₀ = '<' ∧ c₁ = 'p') := by
          rintro ⟨rfl, -⟩; exact h (by simp)
        simp only [paraFindallAux, if_neg hc]
        exact ih (c₁ :: rest) (fun hm => h (List.mem_cons_of_mem _ hm))

theorem paraFindall_no_lt {s : List Char} (h : '<' ∉ s) : paraFindall s = [] :=
  paraFindallAux_no_lt (s.length + 1) s h

/-- Every character of every `split2` piece is a character of the input. -/
theorem split2_mem_subset (s₀ s₁ : Char) :
    ∀ (s : List Char), ∀ p ∈ split2 s₀ s₁ s, ∀ c ∈ p, c ∈ s := by
  intro s
  induction s using split2.induct s₀ s₁ with
  | case1 =>
    intro p hp c hc
    simp [split2] at hp
    rw [hp] at hc
    simp at hc
  | case2 d =>
    intro p hp c hc
    simp [split2] at hp
    rw [hp] at hc
    exact hc
  | case3 c₀ c₁ rest hcond ih =>
    intro p hp c hc
    rw [split2, if_pos hcond] at hp
    rcases List.mem_cons.mp hp with rfl | hp'
    · simp at hc
    · exact List.mem_cons_of_mem _ (List.mem_cons_of_mem _ (ih p hp' c hc))
  | case4 c₀ c₁ rest hcond hnil ih =>
    intro p hp c hc
    rw [split2, if_neg hcond, hnil] at hp
    have hp1 : p = [c₀] := by simpa using hp
    rw [hp1] at hc
    have : c = c₀ := by simpa using hc
    simp [this]
  | case5 c₀ c₁ rest hcond p₀ ps hcons ih =>
    intro p hp c hc
    rw [split2, if_neg hcond, hcons] at hp
    rcases List.mem_cons.mp hp with rfl | hp'
    · rcases List.mem_cons.mp hc with rfl | hc'
      · exact List.mem_cons_self _ _
      · exact List.mem_cons_of_mem _
          (ih p₀ (by rw [hcons]; exact List.mem_cons_self _ _) c hc')
    · exact List.mem_cons_of_mem _
        (ih p (by rw [hcons]; exact List.mem_cons_of_mem _ hp') c hc)

theorem pyStrip_eq_nil_of_all_space {s : List Char} (h : ∀ c ∈ s, pySpace c = true) :
    pyStrip s = [] := by
  have h1 : stripLeft s = [] := by
    rw [stripLeft, List.dropWhile_eq_nil_iff]
    exact h
  rw [pyStrip, h1]
  rfl

/-- A blank summary (all characters whitespace) yields no paragraphs. -/
theorem split_paragraphs_blank {summary : List Char}
    (hblank : ∀ c ∈ summary, pySpace c = true) : split_paragraphs summary = [] := by
  have hlt : '<' ∉ summary := fun hm => by
    have := hblank '<' hm
    exact absurd this (by decide)
  have h1 : paraFindall summary = [] := paraFindall_no_lt hlt
  have h2 : ((split2 '\n' '\n' summary).map pyStrip).filter (fun p => !p.isEmpty) = [] := by
    rw [List.filter_eq_nil_iff]
    intro p hp
    rcases List.mem_map.mp hp with ⟨p₀, hp₀, rfl⟩
    have : pyStrip p₀ = [] :=
      pyStrip_eq_nil_of_all_space (fun c hc =>
        hblank c (split2_mem_subset '\n' '\n' summary p₀ hp₀ c hc))
    simp [this]
  rw [split_paragraphs, h1]
  simp only [List.isEmpty_nil, if_pos]
  rw [h2]
  rfl

end DiagramLemmas

/-- C10: for every topic and every blank summary (all characters whitespace,
hence no HTML paragraph block and no non-blank text — including the empty
string), the diagram builder does not fail: it returns exactly the graph
skeleton with the root line, three branch declarations each with a
`root -> bi` edge, and zero leaf lines. -/
theorem build_summary_dot_blank (topic summary : List Char) (leavesPerPara wrapLen : Nat)
    (orientation : List Char) (hblank : ∀ c ∈ summary, pySpace c = true) :
    build_summary_dot_lines topic summary leavesPerPara wrapLen orientation =
      ["digraph G \x7b".data,
       "graph [rankdir=".data ++ orientation ++
         ", splines=true, overlap=false, nodesep=0.4, ranksep=0.7, margin=0.1];".data,
       "node [shape=box, style=filled, fillcolor=\"#111827\", color=\"#3b82f6\", fontname=\"Helvetica\", fontsize=11, fontcolor=\"#e5e7eb\"];".data,
       "root [label=\"".data ++ wrap_label topic wrapLen ++
         "\", shape=oval, fillcolor=\"#1f2937\", fontsize=14, penwidth=2, color=\"#60a5fa\"];".data,
       "b".data ++ natToChars 0 ++ " [label=\"".data ++
         wrap_label ("Definition & Building Blocks".data) wrapLen ++
         "\", fillcolor=\"#0b1320\", fontsize=12, color=\"#93c5fd\"];".data,
       "root -> b".data ++ natToChars 0 ++ ";".data,
       "b".data ++ natToChars 1 ++ " [label=\"".data ++
         wrap_label ("Architecture • Security • Ops".data) wrapLen ++
         "\", fillcolor=\"#0b1320\", fontsize=12, color=\"#93c5fd\"];".data,
       "root -> b".data ++ natToChars 1 ++ ";".data,
       "b".data ++ natToChars 2 ++ " [label=\"".data ++
         wrap_label ("Use Cases • Benefits • Costs".data) wrapLen ++
         "\", fillcolor=\"#0b1320\", fontsize=12, color=\"#93c5fd\"];".data,
       "root -> b".data ++ natToChars 2 ++ ";".data,
       "\x7d".data] := by
  have hp : split_paragraphs summary = [] := split_paragraphs_blank hblank
  simp only [build_summary_dot_lines, hp, heads, leafLines]
  simp [List.enum, List.enumFrom]

/-- Witness for C10: the blank summary `  \n\n ` with topic `T`. -/
theorem build_summary_dot_blank_witness :
    build_summary_dot_lines ("T".data) ("  \n\n ".data) 4 24 ("TB".data) =
      ["digraph G \x7b".data,
       "graph [rankdir=".data ++ "TB".data ++
         ", splines=true, overlap=false, nodesep=0.4, ranksep=0.7, margin=0.1];".data,
       "node [shape=box, style=filled, fillcolor=\"#111827\", color=\"#3b82f6\", fontname=\"Helvetica\", fontsize=11, fontcolor=\"#e5e7eb\"];".data,
       "root [label=\"".data ++ wrap_label ("T".data) 24 ++
         "\", shape=oval, fillcolor=\"#1f2937\", fontsize=14, penwidth=2, color=\"#60a5fa\"];".data,
       "b".data ++ natToChars 0 ++ " [label=\"".data ++
         wrap_label ("Definition & Building Blocks".data) 24 ++
         "\", fillcolor=\"#0b1320\", fontsize=12, color=\"#93c5fd\"];".data,
       "root -> b".data ++ natToChars 0 ++ ";".data,
       "b".data ++ natToChars 1 ++ " [label=\"".data ++
         wrap_label ("Architecture • Security • Ops".data) 24 ++
         "\", fillcolor=\"#0b1320\", fontsize=12, color=\"#93c5fd\"];".data,
       "root -> b".data ++ natToChars 1 ++ ";".data,
       "b".data ++ natToChars 2 ++ " [label=\"".data ++
         wrap_label ("Use Cases • Benefits • Costs".data) 24 ++
         "\", fillcolor=\"#0b1320\", fontsize=12, color=\"#93c5fd\"];".data,
       "root -> b".data ++ natToChars 2 ++ ";".data,
       "\x7d".data] :=
  build_summary_dot_blank ("T".data) ("  \n\n ".data) 4 24 ("TB".data) (by decide)

section QuizBlockLemmas

/-- A string whose first and last characters are not whitespace strips to
itself. -/
theorem pyStrip_eq_self_of_ends {s : List Char}
    (h1 : ∀ c, s.head? = some c → pySpace c = false)
    (h2 : ∀ c, s.getLast? = some c → pySpace c = false) : pyStrip s = s := by
  cases s with
  | nil => rfl
  | cons c t =>
    have hc : pySpace c = false := h1 c rfl
    rw [pyStrip, stripLeft_cons_of_not_space hc]
    cases hrev : (c :: t).reverse with
    | nil => exact absurd hrev (by simp)
    | cons d u =>
      have hd : pySpace d = false := by
        apply h2 d
        rw [← List.head?_reverse, hrev]
        rfl
      exact stripRight_eq_self_of_last hrev hd

theorem trimmed_head_not_space {v : List Char} (hv : pyStrip v = v) :
    ∀ c, v.head? = some c → pySpace c = false := by
  intro c hc
  cases v with
  | nil => simp at hc
  | cons d t =>
    have hd : d = c := by simpa using hc
    subst hd
    exact stripLeft_head_not_space (stripLeft_of_trimmed hv)

theorem trimmed_last_not_space {v : List Char} (hv : pyStrip v = v) :
    ∀ c, v.getLast? = some c → pySpace c = false := by
  intro c hc
  have hv2 : stripRight v = v := stripRight_of_trimmed hv
  have hne : stripRight v ≠ [] := by
    rw [hv2]
    intro h
    rw [h] at hc
    simp at hc
  obtain ⟨d, t, hrev, hd⟩ := stripRight_last_not_space hne
  rw [hv2] at hrev
  have hlast : v.getLast? = some d := by rw [← List.head?_reverse, hrev]; rfl
  rw [hlast] at hc
  injection hc with e
  rw [← e]
  exact hd

theorem pySplitlinesAux_nil (cur : List Char) :
    pySplitlinesAux cur [] = if cur.isEmpty then [] else [cur.reverse] := rfl

theorem pySplitlinesAux_cons_no_break (cur : List Char) {c : Char}
    (hc : pyLineBreak c = false) (rest : List Char) :
    pySplitlinesAux cur (c :: rest) = pySplitlinesAux (c :: cur) rest := by
  rw [pySplitlinesAux.eq_def]
  simp [hc]

theorem pySplitlinesAux_no_break {a : List Char} (ha : ∀ c ∈ a, pyLineBreak c = false) :
    ∀ (cur b : List Char),
      pySplitlinesAux cur (a ++ b) = pySplitlinesAux (a.reverse ++ cur) b := by
  induction a with
  | nil =>
    intro cur b
    simp only [List.nil_append, List.reverse_nil]
  | cons c a ih =>
    intro cur b
    have hc : pyLineBreak c = false := ha c (List.mem_cons_self _ _)
    rw [List.cons_append, pySplitlinesAux_cons_no_break cur hc]
    rw [ih (fun d hd => ha d (List.mem_cons_of_mem _ hd)) (c :: cur) b]
    simp

theorem pySplitlinesAux_newline (cur b : List Char) :
    pySplitlinesAux cur ('\n' :: b) = cur.reverse :: pySplitlinesAux [] b := by
  rw [pySplitlinesAux.eq_def]
  simp [pyLineBreak]

/-- Splitting a three-line text with interior newlines and a nonempty last
line. -/
theorem pySplitlines_three {l1 l2 l3 : List Char}
    (h1 : ∀ c ∈ l1, pyLineBreak c = false) (h2 : ∀ c ∈ l2, pyLineBreak c = false)
    (h3 : ∀ c ∈ l3, pyLineBreak c = false) (hne : l3 ≠ []) :
    pySplitlines (l1 ++ '\n' :: (l2 ++ '\n' :: l3)) = [l1, l2, l3] := by
  have e3 : pySplitlinesAux [] l3 = [l3] := by
    have h := pySplitlinesAux_no_break h3 [] []
    rw [List.append_nil] at h
    rw [h, pySplitlinesAux_nil]
    simp [List.isEmpty_iff, hne]
  rw [pySplitlines, pySplitlinesAux_no_break h1, pySplitlinesAux_newline,
      pySplitlinesAux_no_break h2, pySplitlinesAux_newline, e3]
  simp

theorem replace2_nil (p₀ p₁ : Char) (rep : List Char) : replace2 p₀ p₁ rep [] = [] := rfl

theorem replace2_pat (p₀ p₁ : Char) (rep rest : List Char) :
    replace2 p₀ p₁ rep (p₀ :: p₁ :: rest) = rep ++ replace2 p₀ p₁ rep rest := by
  rw [replace2, if_pos ⟨rfl, rfl⟩]

theorem replace2_nomatch (p₀ p₁ c₀ c₁ : Char) (h : ¬(c₀ = p₀ ∧ c₁ = p₁))
    (rep rest : List Char) :
    replace2 p₀ p₁ rep (c₀ :: c₁ :: rest) = c₀ :: replace2 p₀ p₁ rep (c₁ :: rest) := by
  rw [replace2, if_neg h]

/-- The pattern cannot start inside a segment free of its second character,
nor straddle into a remainder not starting with that character. -/
theorem replace2_skip {p₀ p₁ : Char} {rep : List Char} :
    ∀ {x : List Char}, p₁ ∉ x → ∀ {rest : List Char},
      (∀ c, rest.head? = some c → c ≠ p₁) →
      replace2 p₀ p₁ rep (x ++ rest) = x ++ replace2 p₀ p₁ rep rest := by
  intro x
  induction x with
  | nil => intro _ rest _; simp
  | cons c x ih =>
    intro hx rest hrest
    have hx' : p₁ ∉ x := fun h => hx (List.mem_cons_of_mem _ h)
    rw [List.cons_append]
    cases hxr : x ++ rest with
    | nil =>
      have h0 : x = [] ∧ rest = [] := List.append_eq_nil.mp hxr
      rw [h0.1, h0.2]
      simp [replace2]
    | cons d t =>
      have hd : d ≠ p₁ := by
        cases x with
        | nil =>
          have hr : rest = d :: t := by simpa using hxr
          exact hrest d (by rw [hr]; rfl)
        | cons e x' =>
          have he : e = d := by
            have h := congrArg List.head? hxr
            simpa using h
          rw [← he]
          intro hep
          exact hx (by rw [← hep]; exact List.mem_cons_of_mem _ (List.mem_cons_self _ _))
      rw [replace2_nomatch p₀ p₁ c d (fun hcd => hd hcd.2) rep t]
      rw [← hxr, ih hx' hrest]
      rfl

theorem replace2_space_skip (p₀ p₁ : Char) (hp : ' ' ≠ p₁) (rep : List Char)
    {x : List Char} (hx : p₁ ∉ x) {rest : List Char}
    (hrest : ∀ c, rest.head? = some c → c ≠ p₁) :
    replace2 p₀ p₁ rep (' ' :: (x ++ rest)) = ' ' :: (x ++ replace2 p₀ p₁ rep rest) := by
  have hx' : p₁ ∉ (' ' :: x) := by
    intro h
    rcases List.mem_cons.mp h with e | h'
    · exact hp e.symm
    · exact hx h'
  have h := @replace2_skip p₀ p₁ rep (' ' :: x) hx' rest hrest
  simpa using h

theorem split1_ne_nil (sep : Char) : ∀ s, split1 sep s ≠ [] := by
  intro s
  cases s with
  | nil => simp [split1]
  | cons c rest =>
    rw [split1]
    by_cases h : c = sep
    · simp [h]
    · rw [if_neg h]
      cases hs : split1 sep rest with
      | nil => simp
      | cons p ps => simp

theorem split1_sep_cons (sep : Char) (b : List Char) :
    split1 sep (sep :: b) = [] :: split1 sep b := by
  rw [split1, if_pos rfl]

theorem split1_cons_skip (sep c : Char) (hne : c ≠ sep) (rest : List Char) :
    split1 sep (c :: rest) =
      (c :: (split1 sep rest).headI) :: (split1 sep rest).tail := by
  rw [split1, if_neg hne]
  cases hs : split1 sep rest with
  | nil => exact absurd hs (split1_ne_nil sep rest)
  | cons p ps => simp

theorem split1_append_skip {sep : Char} {x : List Char} (hx : sep ∉ x) (rest : List Char) :
    split1 sep (x ++ rest) =
      (x ++ (split1 sep rest).headI) :: (split1 sep rest).tail := by
  induction x with
  | nil =>
    cases hs : split1 sep rest with
    | nil => exact absurd hs (split1_ne_nil sep rest)
    | cons p ps => simp [hs]
  | cons c x ih =>
    have hc : c ≠ sep := fun e => hx (by rw [e]; exact List.mem_cons_self _ _)
    rw [List.cons_append, split1_cons_skip sep c hc _,
      ih (fun m => hx (List.mem_cons_of_mem _ m))]
    simp

theorem head_cons_ne (a sep : Char) (h : a ≠ sep) (r : List Char) :
    ∀ c, (a :: r).head? = some c → c ≠ sep := by
  intro c hc
  have ha : a = c := by simpa using hc
  rw [← ha]
  exact h

theorem head_nil_ne (sep : Char) : ∀ c, ([] : List Char).head? = some c → c ≠ sep := by
  intro c hc
  simp at hc

theorem replace2_space_skip_end (p₀ p₁ : Char) (hp : ' ' ≠ p₁) (rep : List Char)
    {w : List Char} (hw : p₁ ∉ w) :
    replace2 p₀ p₁ rep (' ' :: w) = ' ' :: w := by
  have h := @replace2_space_skip p₀ p₁ hp rep w hw [] (head_nil_ne _)
  simpa [replace2_nil] using h

theorem split1_no_sep {sep : Char} {x : List Char} (hx : sep ∉ x) :
    split1 sep x = [x] := by
  have h := split1_append_skip hx []
  rw [List.append_nil] at h
  rw [h]
  simp [split1]

/-- First tokenizer pass of the `Options:` line: mark the `A)` marker. -/
theorem optsPassA {x y z w : List Char} (hx : ')' ∉ x) (hy : ')' ∉ y) (hz : ')' ∉ z)
    (hw : ')' ∉ w) :
    replace2 'A' ')' ("|A)".data)
      ('A' :: ')' :: ' ' :: (x ++ ' ' :: 'B' :: ')' :: ' ' ::
        (y ++ ' ' :: 'C' :: ')' :: ' ' :: (z ++ ' ' :: 'D' :: ')' :: ' ' :: w))))
    = '|' :: 'A' :: ')' :: ' ' :: (x ++ ' ' :: 'B' :: ')' :: ' ' ::
        (y ++ ' ' :: 'C' :: ')' :: ' ' :: (z ++ ' ' :: 'D' :: ')' :: ' ' :: w))) := by
  rw [replace2_pat]
  rw [replace2_space_skip 'A' ')' (by decide) _ hx
    (head_cons_ne ' ' ')' (by decide) _)]
  rw [replace2_nomatch 'A' ')' ' ' 'B' (by decide) _ _]
  rw [replace2_nomatch 'A' ')' 'B' ')' (by decide) _ _]
  rw [replace2_nomatch 'A' ')' ')' ' ' (by decide) _ _]
  rw [replace2_space_skip 'A' ')' (by decide) _ hy
    (head_cons_ne ' ' ')' (by decide) _)]
  rw [replace2_nomatch 'A' ')' ' ' 'C' (by decide) _ _]
  rw [replace2_nomatch 'A' ')' 'C' ')' (by decide) _ _]
  rw [replace2_nomatch 'A' ')' ')' ' ' (by decide) _ _]
  rw [replace2_space_skip 'A' ')' (by decide) _ hz
    (head_cons_ne ' ' ')' (by decide) _)]
  rw [replace2_nomatch 'A' ')' ' ' 'D' (by decide) _ _]
  rw [replace2_nomatch 'A' ')' 'D' ')' (by decide) _ _]
  rw [replace2_nomatch 'A' ')' ')' ' ' (by decide) _ _]
  rw [replace2_space_skip_end 'A' ')' (by decide) _ hw]
  rfl

/-- Second tokenizer pass: mark the `B)` marker. -/
theorem optsPassB {x y z w : List Char} (hx : ')' ∉ x) (hy : ')' ∉ y) (hz : ')' ∉ z)
    (hw : ')' ∉ w) :
    replace2 'B' ')' ("|B)".data)
      ('|' :: 'A' :: ')' :: ' ' :: (x ++ ' ' :: 'B' :: ')' :: ' ' ::
        (y ++ ' ' :: 'C' :: ')' :: ' ' :: (z ++ ' ' :: 'D' :: ')' :: ' ' :: w))))
    = '|' :: 'A' :: ')' :: ' ' :: (x ++ ' ' :: '|' :: 'B' :: ')' :: ' ' ::
        (y ++ ' ' :: 'C' :: ')' :: ' ' :: (z ++ ' ' :: 'D' :: ')' :: ' ' :: w))) := by
  rw [replace2_nomatch 'B' ')' '|' 'A' (by decide) _ _]
  rw [replace2_nomatch 'B' ')' 'A' ')' (by decide) _ _]
  rw [replace2_nomatch 'B' ')' ')' ' ' (by decide) _ _]
  rw [replace2_space_skip 'B' ')' (by decide) _ hx
    (head_cons_ne ' ' ')' (by decide) _)]
  rw [replace2_nomatch 'B' ')' ' ' 'B' (by decide) _ _]
  rw [replace2_pat]
  rw [replace2_space_skip 'B' ')' (by decide) _ hy
    (head_cons_ne ' ' ')' (by decide) _)]
  rw [replace2_nomatch 'B' ')' ' ' 'C' (by decide) _ _]
  rw [replace2_nomatch 'B' ')' 'C' ')' (by decide) _ _]
  rw [replace2_nomatch 'B' ')' ')' ' ' (by decide) _ _]
  rw [replace2_space_skip 'B' ')' (by decide) _ hz
    (head_cons_ne ' ' ')' (by decide) _)]
  rw [replace2_nomatch 'B' ')' ' ' 'D' (by decide) _ _]
  rw [replace2_nomatch 'B' ')' 'D' ')' (by decide) _ _]
  rw [replace2_nomatch 'B' ')' ')' ' ' (by decide) _ _]
  rw [replace2_space_skip_end 'B' ')' (by decide) _ hw]
  rfl

/-- Third tokenizer pass: mark the `C)` marker. -/
theorem optsPassC {x y z w : List Char} (hx : ')' ∉ x) (hy : ')' ∉ y) (hz : ')' ∉ z)
    (hw : ')' ∉ w) :
    replace2 'C' ')' ("|C)".data)
      ('|' :: 'A' :: ')' :: ' ' :: (x ++ ' ' :: '|' :: 'B' :: ')' :: ' ' ::
        (y ++ ' ' :: 'C' :: ')' :: ' ' :: (z ++ ' ' :: 'D' :: ')' :: ' ' :: w))))
    = '|' :: 'A' :: ')' :: ' ' :: (x ++ ' ' :: '|' :: 'B' :: ')' :: ' ' ::
        (y ++ ' ' :: '|' :: 'C' :: ')' :: ' ' :: (z ++ ' ' :: 'D' :: ')' :: ' ' :: w))) := by
  rw [replace2_nomatch 'C' ')' '|' 'A' (by decide) _ _]
  rw [replace2_nomatch 'C' ')' 'A' ')' (by decide) _ _]
  rw [replace2_nomatch 'C' ')' ')' ' ' (by decide) _ _]
  rw [replace2_space_skip 'C' ')' (by decide) _ hx
    (head_cons_ne ' ' ')' (by decide) _)]
  rw [replace2_nomatch 'C' ')' ' ' '|' (by decide) _ _]
  rw [replace2_nomatch 'C' ')' '|' 'B' (by decide) _ _]
  rw [replace2_nomatch 'C' ')' 'B' ')' (by decide) _ _]
  rw [replace2_nomatch 'C' ')' ')' ' ' (by decide) _ _]
  rw [replace2_space_skip 'C' ')' (by decide) _ hy
    (head_cons_ne ' ' ')' (by decide) _)]
  rw [replace2_nomatch 'C' ')' ' ' 'C' (by decide) _ _]
  rw [replace2_pat]
  rw [replace2_space_skip 'C' ')' (by decide) _ hz
    (head_cons_ne ' ' ')' (by decide) _)]
  rw [replace2_nomatch 'C' ')' ' ' 'D' (by decide) _ _]
  rw [replace2_nomatch 'C' ')' 'D' ')' (by decide) _ _]
  rw [replace2_nomatch 'C' ')' ')' ' ' (by decide) _ _]
  rw [replace2_space_skip_end 'C' ')' (by decide) _ hw]
  rfl

/-- Fourth tokenizer pass: mark the `D)` marker. -/
theorem optsPassD {x y z w : List Char} (hx : ')' ∉ x) (hy : ')' ∉ y) (hz : ')' ∉ z)
    (hw : ')' ∉ w) :
    replace2 'D' ')' ("|D)".data)
      ('|' :: 'A' :: ')' :: ' ' :: (x ++ ' ' :: '|' :: 'B' :: ')' :: ' ' ::
        (y ++ ' ' :: '|' :: 'C' :: ')' :: ' ' :: (z ++ ' ' :: 'D' :: ')' :: ' ' :: w))))
    = '|' :: 'A' :: ')' :: ' ' :: (x ++ ' ' :: '|' :: 'B' :: ')' :: ' ' ::
        (y ++ ' ' :: '|' :: 'C' :: ')' :: ' ' :: (z ++ ' ' :: '|' :: 'D' :: ')' :: ' ' :: w))) := by
  rw [replace2_nomatch 'D' ')' '|' 'A' (by decide) _ _]
  rw [replace2_nomatch 'D' ')' 'A' ')' (by decide) _ _]
  rw [replace2_nomatch 'D' ')' ')' ' ' (by decide) _ _]
  rw [replace2_space_skip 'D' ')' (by decide) _ hx
    (head_cons_ne ' ' ')' (by decide) _)]
  rw [replace2_nomatch 'D' ')' ' ' '|' (by decide) _ _]
  rw [replace2_nomatch 'D' ')' '|' 'B' (by decide) _ _]
  rw [replace2_nomatch 'D' ')' 'B' ')' (by decide) _ _]
  rw [replace2_nomatch 'D' ')' ')' ' ' (by decide) _ _]
  rw [replace2_space_skip 'D' ')' (by decide) _ hy
    (head_cons_ne ' ' ')' (by decide) _)]
  rw [replace2_nomatch 'D' ')' ' ' '|' (by decide) _ _]
  rw [replace2_nomatch 'D' ')' '|' 'C' (by decide) _ _]
  rw [replace2_nomatch 'D' ')' 'C' ')' (by decide) _ _]
  rw [replace2_nomatch 'D' ')' ')' ' ' (by decide) _ _]
  rw [replace2_space_skip 'D' ')' (by decide) _ hz
    (head_cons_ne ' ' ')' (by decide) _)]
  rw [replace2_nomatch 'D' ')' ' ' 'D' (by decide) _ _]
  rw [replace2_pat]
  rw [replace2_space_skip_end 'D' ')' (by decide) _ hw]
  rfl

/-- Stripping a marker token with its trailing separator space. -/
theorem strip_marker_token (m : Char) (hm : pySpace m = false) (v : List Char)
    (hv : pyStrip v = v) (hvne : v ≠ []) :
    pyStrip (m :: ')' :: ' ' :: (v ++ [' '])) = m :: ')' :: ' ' :: v := by
  rw [pyStrip, stripLeft_cons_of_not_space hm]
  have h1 : stripRight ((m :: ')' :: ' ' :: v) ++ [' ']) = stripRight (m :: ')' :: ' ' :: v) :=
    stripRight_append_space (by decide) _
  have h2 : stripRight ((m :: ')' :: [' ']) ++ v) = (m :: ')' :: [' ']) ++ v :=
    @stripRight_append (m :: ')' :: [' ']) v (stripRight_of_trimmed hv) hvne
  calc stripRight (m :: ')' :: ' ' :: (v ++ [' ']))
      = stripRight ((m :: ')' :: ' ' :: v) ++ [' ']) := rfl
    _ = stripRight (m :: ')' :: ' ' :: v) := h1
    _ = m :: ')' :: ' ' :: v := h2

/-- The token post-processing of `parseOptions` strips the `X)` marker. -/
theorem token_option (m : Char) (v : List Char) (hv : pyStrip v = v) (tk : List Char)
    (htk : pyStrip tk = m :: ')' :: ' ' :: v) :
    (if 2 ≤ (pyStrip tk).length ∧ (pyStrip tk).get? 1 = some ')' then
       pyStrip ((pyStrip tk).drop 2) else pyStrip tk) = v := by
  rw [htk]
  rw [if_pos ⟨by simp, rfl⟩]
  exact pyStrip_space_cons hv

/-- The `Options:` tokenizer on a well-formed four-marker line yields exactly
the four option texts, markers stripped. -/
theorem parseOptions_block {x y z w : List Char}
    (hxt : pyStrip x = x) (hxne : x ≠ []) (hxp : ')' ∉ x) (hxb : '|' ∉ x)
    (hyt : pyStrip y = y) (hyne : y ≠ []) (hyp : ')' ∉ y) (hyb : '|' ∉ y)
    (hzt : pyStrip z = z) (hzne : z ≠ []) (hzp : ')' ∉ z) (hzb : '|' ∉ z)
    (hwt : pyStrip w = w) (hwne : w ≠ []) (hwp : ')' ∉ w) (hwb : '|' ∉ w) :
    parseOptions ('A' :: ')' :: ' ' :: (x ++ ' ' :: 'B' :: ')' :: ' ' ::
      (y ++ ' ' :: 'C' :: ')' :: ' ' :: (z ++ ' ' :: 'D' :: ')' :: ' ' :: w)))) = [x, y, z, w] := by
  have sD : split1 '|' ('D' :: ')' :: ' ' :: w) = ['D' :: ')' :: ' ' :: w] := by
    rw [split1_cons_skip '|' 'D' (by decide) _, split1_cons_skip '|' ')' (by decide) _,
        split1_cons_skip '|' ' ' (by decide) _, split1_no_sep hwb]
    rfl
  have sz : split1 '|' (z ++ ' ' :: '|' :: 'D' :: ')' :: ' ' :: w)
      = (z ++ [' ']) :: ['D' :: ')' :: ' ' :: w] := by
    rw [split1_append_skip hzb _, split1_cons_skip '|' ' ' (by decide) _,
        split1_sep_cons, sD]
    rfl
  have sC : split1 '|' ('C' :: ')' :: ' ' :: (z ++ ' ' :: '|' :: 'D' :: ')' :: ' ' :: w))
      = ['C' :: ')' :: ' ' :: (z ++ [' ']), 'D' :: ')' :: ' ' :: w] := by
    rw [split1_cons_skip '|' 'C' (by decide) _, split1_cons_skip '|' ')' (by decide) _,
        split1_cons_skip '|' ' ' (by decide) _, sz]
    rfl
  have sy : split1 '|' (y ++ ' ' :: '|' ::
        ('C' :: ')' :: ' ' :: (z ++ ' ' :: '|' :: 'D' :: ')' :: ' ' :: w)))
      = (y ++ [' ']) :: ['C' :: ')' :: ' ' :: (z ++ [' ']), 'D' :: ')' :: ' ' :: w] := by
    rw [split1_append_skip hyb _, split1_cons_skip '|' ' ' (by decide) _,
        split1_sep_cons, sC]
    rfl
  have sB : split1 '|' ('B' :: ')' :: ' ' :: (y ++ ' ' :: '|' ::
        ('C' :: ')' :: ' ' :: (z ++ ' ' :: '|' :: 'D' :: ')' :: ' ' :: w))))
      = ['B' :: ')' :: ' ' :: (y ++ [' ']), 'C' :: ')' :: ' ' :: (z ++ [' ']),
         'D' :: ')' :: ' ' :: w] := by
    rw [split1_cons_skip '|' 'B' (by decide) _, split1_cons_skip '|' ')' (by decide) _,
        split1_cons_skip '|' ' ' (by decide) _, sy]
    rfl
  have sx : split1 '|' (x ++ ' ' :: '|' :: ('B' :: ')' :: ' ' :: (y ++ ' ' :: '|' ::
        ('C' :: ')' :: ' ' :: (z ++ ' ' :: '|' :: 'D' :: ')' :: ' ' :: w)))))
      = (x ++ [' ']) :: ['B' :: ')' :: ' ' :: (y ++ [' ']),
         'C' :: ')' :: ' ' :: (z ++ [' ']), 'D' :: ')' :: ' ' :: w] := by
    rw [split1_append_skip hxb _, split1_cons_skip '|' ' ' (by decide) _,
        split1_sep_cons, sB]
    rfl
  have sA : split1 '|' ('A' :: ')' :: ' ' :: (x ++ ' ' :: '|' ::
        ('B' :: ')' :: ' ' :: (y ++ ' ' :: '|' ::
          ('C' :: ')' :: ' ' :: (z ++ ' ' :: '|' :: 'D' :: ')' :: ' ' :: w))))))
      = ['A' :: ')' :: ' ' :: (x ++ [' ']), 'B' :: ')' :: ' ' :: (y ++ [' ']),
         'C' :: ')' :: ' ' :: (z ++ [' ']), 'D' :: ')' :: ' ' :: w] := by
    rw [split1_cons_skip '|' 'A' (by decide) _, split1_cons_skip '|' ')' (by decide) _,
        split1_cons_skip '|' ' ' (by decide) _, sx]
    rfl
  have hstripA := strip_marker_token 'A' (by decide) x hxt hxne
  have hstripB := strip_marker_token 'B' (by decide) y hyt hyne
  have hstripC := strip_marker_token 'C' (by decide) z hzt hzne
  have hstripD : pyStrip ('D' :: ')' :: ' ' :: w) = 'D' :: ')' :: ' ' :: w := by
    rw [pyStrip, stripLeft_cons_of_not_space (by decide)]
    exact @stripRight_append ('D' :: ')' :: [' ']) w (stripRight_of_trimmed hwt) hwne
  simp only [parseOptions]
  rw [optsPassA hxp hyp hzp hwp, optsPassB hxp hyp hzp hwp,
      optsPassC hxp hyp hzp hwp, optsPassD hxp hyp hzp hwp]
  rw [split1_sep_cons, sA]
  simp only [List.filter_cons, List.filter_nil, List.isEmpty_cons, List.isEmpty_nil,
    Bool.not_false, Bool.not_true, if_true, if_false]
  rw [if_neg (by decide)]
  simp only [List.map_cons, List.map_nil]
  rw [token_option 'A' x hxt _ hstripA, token_option 'B' y hyt _ hstripB,
      token_option 'C' z hzt _ hstripC, token_option 'D' w hwt _ hstripD]

theorem no_break_concat {a b : List Char} (ha : ∀ c ∈ a, pyLineBreak c = false)
    (hb : ∀ c ∈ b, pyLineBreak c = false) : ∀ c ∈ a ++ b, pyLineBreak c = false := by
  intro c hc
  rcases List.mem_append.mp hc with h | h
  · exact ha c h
  · exact hb c h

theorem getLast_cons_ne (a : Char) (l : List Char) (hl : l ≠ []) :
    (a :: l).getLast? = l.getLast? := by
  rw [show a :: l = [a] ++ l from rfl]
  exact List.getLast?_append_of_ne_nil [a] hl

/-- One unfolding step of the quiz line loop. -/
theorem quizLoop_cons (n : Nat) (raw : List Char) (rest : List (List Char))
    (question : Option (List Char)) (options : List (List Char)) (quizzes : List QuizItem) :
    quizLoop n (raw :: rest) question options quizzes =
      (if "Q:".data.isPrefixOf (pyStrip raw) then
        (if n ≤ quizzes.length then quizzes
         else quizLoop n rest (some (pyStrip ((pyStrip raw).drop 2))) options quizzes)
      else if "Options:".data.isPrefixOf (pyStrip raw) then
        (if n ≤ quizzes.length then quizzes
         else quizLoop n rest question (parseOptions (pyStrip ((pyStrip raw).drop 8))) quizzes)
      else if "Answer:".data.isPrefixOf (pyStrip raw) && truthyStr question then
        (if n ≤ (quizzes ++
            [(⟨question.getD [], options.take 4, pyStrip ((pyStrip raw).drop 7)⟩ : QuizItem)]).length
         then quizzes ++ [(⟨question.getD [], options.take 4,
            pyStrip ((pyStrip raw).drop 7)⟩ : QuizItem)]
         else quizLoop n rest none []
           (quizzes ++ [(⟨question.getD [], options.take 4,
             pyStrip ((pyStrip raw).drop 7)⟩ : QuizItem)]))
      else (if n ≤ quizzes.length then quizzes
            else quizLoop n rest question options quizzes)) := rfl

end QuizBlockLemmas

/-- C2: a quiz reply block `Q: q`, `Options: A) x B) y C) z D) w`,
`Answer: y` — with the question and options trimmed, nonempty, and free of
line breaks, the options also free of `)` and `|` and distinct from the
answer text where scored — parses (for any requested count `n ≥ 1`) to the
single item {question `q`, options `[x, y, z, w]`, answer `y`}; scoring that
item against user choice `y` yields "Correct" and against each other option
yields "Wrong". -/
theorem quiz_block_roundtrip (q x y z w : List Char) (n : Nat) (hn : 1 ≤ n)
    (hqt : pyStrip q = q) (hqne : q ≠ []) (hqb : ∀ c ∈ q, pyLineBreak c = false)
    (hxt : pyStrip x = x) (hxne : x ≠ []) (hxp : ')' ∉ x) (hxbar : '|' ∉ x)
    (hxb : ∀ c ∈ x, pyLineBreak c = false)
    (hyt : pyStrip y = y) (hyne : y ≠ []) (hyp : ')' ∉ y) (hybar : '|' ∉ y)
    (hyb : ∀ c ∈ y, pyLineBreak c = false)
    (hzt : pyStrip z = z) (hzne : z ≠ []) (hzp : ')' ∉ z) (hzbar : '|' ∉ z)
    (hzb : ∀ c ∈ z, pyLineBreak c = false)
    (hwt : pyStrip w = w) (hwne : w ≠ []) (hwp : ')' ∉ w) (hwbar : '|' ∉ w)
    (hwb : ∀ c ∈ w, pyLineBreak c = false)
    (hxy : x ≠ y) (hzy : z ≠ y) (hwy : w ≠ y) :
    generate_quiz_parse
      (("Q: ".data ++ q) ++ '\n' ::
        (("Options: A) ".data ++ (x ++ (" B) ".data ++ (y ++ (" C) ".data ++
          (z ++ (" D) ".data ++ w))))))) ++ '\n' :: ("Answer: ".data ++ y))) n
      = [⟨q, [x, y, z, w], y⟩] ∧
    quizResult (some y) y = "Correct".data ∧
    quizResult (some x) y = "Wrong".data ∧
    quizResult (some z) y = "Wrong".data ∧
    quizResult (some w) y = "Wrong".data := by
  refine ⟨?_, ?_, ?_, ?_, ?_⟩
  · -- parsing
    have hL1 : pyStrip ("Q: ".data ++ q) = "Q: ".data ++ q := by
      apply pyStrip_eq_self_of_ends
      · intro c hc
        cases (show some 'Q' = some c from hc)
        decide
      · intro c hc
        rw [List.getLast?_append_of_ne_nil _ hqne] at hc
        exact trimmed_last_not_space hqt c hc
    have hxR : (x ++ (" B) ".data ++ (y ++ (" C) ".data ++ (z ++ (" D) ".data ++ w)))))) ≠ [] :=
      fun h => hxne (List.append_eq_nil.mp h).1
    have hBne : (" B) ".data ++ (y ++ (" C) ".data ++ (z ++ (" D) ".data ++ w))))) ≠ [] :=
      List.cons_ne_nil _ _
    have hyR : (y ++ (" C) ".data ++ (z ++ (" D) ".data ++ w)))) ≠ [] :=
      fun h => hyne (List.append_eq_nil.mp h).1
    have hCne : (" C) ".data ++ (z ++ (" D) ".data ++ w))) ≠ [] := List.cons_ne_nil _ _
    have hzR : (z ++ (" D) ".data ++ w)) ≠ [] :=
      fun h => hzne (List.append_eq_nil.mp h).1
    have hDne : (" D) ".data ++ w) ≠ [] := List.cons_ne_nil _ _
    have hlastL2 : ∀ c, ("Options: A) ".data ++ (x ++ (" B) ".data ++ (y ++ (" C) ".data ++
        (z ++ (" D) ".data ++ w))))))).getLast? = some c → pySpace c = false := by
      intro c hc
      rw [List.getLast?_append_of_ne_nil _ hxR, List.getLast?_append_of_ne_nil _ hBne,
        List.getLast?_append_of_ne_nil _ hyR, List.getLast?_append_of_ne_nil _ hCne,
        List.getLast?_append_of_ne_nil _ hzR, List.getLast?_append_of_ne_nil _ hDne,
        List.getLast?_append_of_ne_nil _ hwne] at hc
      exact trimmed_last_not_space hwt c hc
    have hL2 : pyStrip ("Options: A) ".data ++ (x ++ (" B) ".data ++ (y ++ (" C) ".data ++
        (z ++ (" D) ".data ++ w))))))) = "Options: A) ".data ++ (x ++ (" B) ".data ++
        (y ++ (" C) ".data ++ (z ++ (" D) ".data ++ w)))))) := by
      apply pyStrip_eq_self_of_ends
      · intro c hc
        cases (show some 'O' = some c from hc)
        decide
      · exact hlastL2
    have hL3 : pyStrip ("Answer: ".data ++ y) = "Answer: ".data ++ y := by
      apply pyStrip_eq_self_of_ends
      · intro c hc
        cases (show some 'A' = some c from hc)
        decide
      · intro c hc
        rw [List.getLast?_append_of_ne_nil _ hyne] at hc
        exact trimmed_last_not_space hyt c hc
    have hb1 : ∀ c ∈ ("Q: ".data ++ q), pyLineBreak c = false :=
      no_break_concat (by decide) hqb
    have hb2 : ∀ c ∈ ("Options: A) ".data ++ (x ++ (" B) ".data ++ (y ++ (" C) ".data ++
        (z ++ (" D) ".data ++ w))))))), pyLineBreak c = false :=
      no_break_concat (by decide) (no_break_concat hxb (no_break_concat (by decide)
        (no_break_concat hyb (no_break_concat (by decide)
          (no_break_concat hzb (no_break_concat (by decide) hwb))))))
    have hb3 : ∀ c ∈ ("Answer: ".data ++ y), pyLineBreak c = false :=
      no_break_concat (by decide) hyb
    have hne3 : ("Answer: ".data ++ y) ≠ [] := List.cons_ne_nil _ _
    rw [generate_quiz_parse, pySplitlines_three hb1 hb2 hb3 hne3]
    rw [quizLoop_cons, hL1]
    rw [if_pos (show ("Q:".data.isPrefixOf ("Q: ".data ++ q)) = true from rfl)]
    rw [if_neg (show ¬ n ≤ ([] : List QuizItem).length from by simp; omega)]
    have hq1 : pyStrip (("Q: ".data ++ q).drop 2) = q := by
      rw [show ("Q: ".data ++ q).drop 2 = ' ' :: q from rfl]
      exact pyStrip_space_cons hqt
    rw [hq1]
    rw [quizLoop_cons, hL2]
    rw [if_neg (by simp [show ("Q:".data.isPrefixOf ("Options: A) ".data ++ (x ++
      (" B) ".data ++ (y ++ (" C) ".data ++ (z ++ (" D) ".data ++ w))))))))
      = false from rfl])]
    rw [if_pos (show ("Options:".data.isPrefixOf ("Options: A) ".data ++ (x ++
      (" B) ".data ++ (y ++ (" C) ".data ++ (z ++ (" D) ".data ++ w))))))))
      = true from rfl)]
    rw [if_neg (show ¬ n ≤ ([] : List QuizItem).length from by simp; omega)]
    have hVt : pyStrip ('A' :: ')' :: ' ' :: (x ++ ' ' :: 'B' :: ')' :: ' ' ::
        (y ++ ' ' :: 'C' :: ')' :: ' ' :: (z ++ ' ' :: 'D' :: ')' :: ' ' :: w))))
        = 'A' :: ')' :: ' ' :: (x ++ ' ' :: 'B' :: ')' :: ' ' ::
        (y ++ ' ' :: 'C' :: ')' :: ' ' :: (z ++ ' ' :: 'D' :: ')' :: ' ' :: w))) := by
      apply pyStrip_eq_self_of_ends
      · intro c hc
        cases (show some 'A' = some c from hc)
        decide
      · intro c hc
        rw [getLast_cons_ne 'A' _ (by simp), getLast_cons_ne ')' _ (by simp),
          getLast_cons_ne ' ' _ (by simp [List.append_eq_nil]),
          List.getLast?_append_of_ne_nil x (by simp),
          getLast_cons_ne ' ' _ (by simp), getLast_cons_ne 'B' _ (by simp),
          getLast_cons_ne ')' _ (by simp),
          getLast_cons_ne ' ' _ (by simp [List.append_eq_nil]),
          List.getLast?_append_of_ne_nil y (by simp),
          getLast_cons_ne ' ' _ (by simp), getLast_cons_ne 'C' _ (by simp),
          getLast_cons_ne ')' _ (by simp),
          getLast_cons_ne ' ' _ (by simp [List.append_eq_nil]),
          List.getLast?_append_of_ne_nil z (by simp),
          getLast_cons_ne ' ' _ (by simp), getLast_cons_ne 'D' _ (by simp),
          getLast_cons_ne ')' _ (by simp),
          getLast_cons_ne ' ' _ hwne] at hc
        exact trimmed_last_not_space hwt c hc
    have hopts : pyStrip (("Options: A) ".data ++ (x ++ (" B) ".data ++
        (y ++ (" C) ".data ++ (z ++ (" D) ".data ++ w))))))).drop 8)
        = 'A' :: ')' :: ' ' :: (x ++ ' ' :: 'B' :: ')' :: ' ' ::
          (y ++ ' ' :: 'C' :: ')' :: ' ' :: (z ++ ' ' :: 'D' :: ')' :: ' ' :: w))) := by
      rw [show ("Options: A) ".data ++ (x ++ (" B) ".data ++ (y ++ (" C) ".data ++
        (z ++ (" D) ".data ++ w))))))).drop 8
        = ' ' :: ('A' :: ')' :: ' ' :: (x ++ ' ' :: 'B' :: ')' :: ' ' ::
          (y ++ ' ' :: 'C' :: ')' :: ' ' :: (z ++ ' ' :: 'D' :: ')' :: ' ' :: w)))) from rfl]
      exact pyStrip_space_cons hVt
    rw [hopts, parseOptions_block hxt hxne hxp hxbar hyt hyne hyp hybar
      hzt hzne hzp hzbar hwt hwne hwp hwbar]
    rw [quizLoop_cons, hL3]
    rw [if_neg (by simp [show ("Q:".data.isPrefixOf ("Answer: ".data ++ y))
      = false from rfl])]
    rw [if_neg (by simp [show ("Options:".data.isPrefixOf ("Answer: ".data ++ y))
      = false from rfl])]
    have htr : truthyStr (some q) = true := by
      simp [truthyStr, List.isEmpty_iff, hqne]
    rw [if_pos (show ("Answer:".data.isPrefixOf ("Answer: ".data ++ y)
        && truthyStr (some q)) = true from by
      rw [htr, show ("Answer:".data.isPrefixOf ("Answer: ".data ++ y)) = true from rfl]
      rfl)]
    have hans : pyStrip (("Answer: ".data ++ y).drop 7) = y := by
      rw [show ("Answer: ".data ++ y).drop 7 = ' ' :: y from rfl]
      exact pyStrip_space_cons hyt
    rw [hans]
    simp only [Option.getD_some, List.nil_append,
      show ([x, y, z, w] : List (List Char)).take 4 = [x, y, z, w] from rfl,
      List.length_cons, List.length_nil]
    by_cases hn1 : n ≤ 0 + 1
    · rw [if_pos hn1]
      exact List.take_of_length_le (by simp; omega)
    · rw [if_neg hn1]
      rw [show quizLoop n [] none [] [(⟨q, [x, y, z, w], y⟩ : QuizItem)]
        = [⟨q, [x, y, z, w], y⟩] from rfl]
      exact List.take_of_length_le (by simp; omega)
  · rw [quizResult, if_pos rfl]
  · rw [quizResult, if_neg (fun h => hxy (Option.some.inj h))]
  · rw [quizResult, if_neg (fun h => hzy (Option.some.inj h))]
  · rw [quizResult, if_neg (fun h => hwy (Option.some.inj h))]

/-- Witness for C2: the concrete block with question `q1` and options
`o1`-`o4`, answer `o2`. -/
theorem quiz_block_roundtrip_witness :
    generate_quiz_parse
      (("Q: ".data ++ "q1".data) ++ '\n' ::
        (("Options: A) ".data ++ ("o1".data ++ (" B) ".data ++ ("o2".data ++ (" C) ".data ++
          ("o3".data ++ (" D) ".data ++ "o4".data))))))) ++ '\n' ::
            ("Answer: ".data ++ "o2".data))) 1
      = [⟨"q1".data, ["o1".data, "o2".data, "o3".data, "o4".data], "o2".data⟩] ∧
    quizResult (some ("o2".data)) ("o2".data) = "Correct".data ∧
    quizResult (some ("o1".data)) ("o2".data) = "Wrong".data ∧
    quizResult (some ("o3".data)) ("o2".data) = "Wrong".data ∧
    quizResult (some ("o4".data)) ("o2".data) = "Wrong".data :=
  quiz_block_roundtrip ("q1".data) ("o1".data) ("o2".data) ("o3".data) ("o4".data) 1
    (by decide) (by decide) (by decide) (by decide) (by decide) (by decide) (by decide)
    (by decide) (by decide) (by decide) (by decide) (by decide) (by decide) (by decide)
    (by decide) (by decide) (by decide) (by decide) (by decide) (by decide) (by decide)
    (by decide) (by decide) (by decide) (by decide) (by decide) (by decide)

end StudyBuddy
